import Mathlib

/-!
Shallow embedding of the configuration resolver (`src/config.py`, class
`Config`) and the supervisory entry point (`src/main.py`) of the trading-bot
repository, together with proofs about the behaviours the specification
describes: layered configuration precedence, the handling of missing and
malformed configuration files, save/update semantics, strategy selection,
the main loop's sleep behaviour, shutdown, and process exit codes.

Modelling conventions:
* JSON/Python values are modelled by the inductive `Value`; Python floats
  are modelled as exact rationals, which is faithful here because the
  embedded code never performs arithmetic on configuration numbers (it only
  stores, compares and passes them along).
* Python dictionaries are association lists (`Fields`) with unique keys in
  insertion order; `\x7b**a, **b\x7d` is `mergeDicts a b`, and `d[k] = v` is
  `Fields.insert`.
* The file system is an association list from path to parsed content.
  `os.makedirs(os.path.dirname(path), exist_ok=True)` is modelled as
  failing exactly when `os.path.dirname path = ""` (Python raises
  `FileNotFoundError` on `os.makedirs ""`); other OS-level write failures
  are outside the model, so a write whose `makedirs` succeeds succeeds.
* `logging` calls are recorded as `LogEvent`s on the successful control
  paths; external collaborators (exchange client, database, alert sink,
  strategies) appear only through their observable interactions with
  `main.py`, scripted by a `World` value.
-/

set_option autoImplicit false

namespace HFT

mutual

/-- JSON-like runtime values as handled by `config.py` (Python's `None`,
`bool`, `int`, `float`, `str`, `list`, `dict`). Floats are exact rationals;
see the module docstring. -/
inductive Value where
  | null
  | bool (b : Bool)
  | int (n : Int)
  | float (q : Rat)
  | str (s : String)
  | list (xs : ValueList)
  | obj (fields : Fields)
deriving DecidableEq

/-- A Python list of values. -/
inductive ValueList where
  | nil
  | cons (v : Value) (t : ValueList)
deriving DecidableEq

/-- A Python dictionary: key/value bindings with unique keys in insertion
order. -/
inductive Fields where
  | nil
  | cons (key : String) (v : Value) (t : Fields)
deriving DecidableEq

end

/-- A Python dictionary holding configuration data. -/
abbrev Dict := Fields

/-- Build a `ValueList` from a Lean list literal. -/
def ValueList.ofList : List Value → ValueList
  | [] => .nil
  | v :: t => .cons v (ValueList.ofList t)

/-- Build a dictionary from a Lean list literal of bindings. -/
def Fields.ofList : List (String × Value) → Fields
  | [] => .nil
  | p :: t => .cons p.1 p.2 (Fields.ofList t)

/-- Python list literal as a `Value`. -/
def Value.mkList (xs : List Value) : Value := .list (ValueList.ofList xs)

/-- Python dict literal as a `Value`. -/
def Value.mkObj (fs : List (String × Value)) : Value := .obj (Fields.ofList fs)

/-- Dictionary lookup, Python `d.get(k)` (`none` models Python `None`). -/
def Fields.get : Fields → String → Option Value
  | .nil, _ => none
  | .cons k v t, k' => if k = k' then some v else t.get k'

/-- Python `d[k] = v`: replace the (unique) existing binding in place, or
append a new one. -/
def Fields.insert : Fields → String → Value → Fields
  | .nil, k, v => .cons k v .nil
  | .cons k0 v0 t, k, v =>
    if k0 = k then .cons k v t else .cons k0 v0 (t.insert k v)

/-- The keys of a dictionary, in order. -/
def Fields.keys : Fields → List String
  | .nil => []
  | .cons k _ t => k :: t.keys

/-- Key membership, Python `k in d`. -/
def Fields.hasKey (d : Fields) (k : String) : Bool :=
  d.keys.contains k

/-- Python membership `v in xs` for a list, using structural equality
(Python `==`; the cross-type numeric equalities of Python, such as
`1 == 1.0`, are not modelled — the embedded code only ever compares
strings here). -/
def ValueList.mem (xs : ValueList) (v : Value) : Bool :=
  match xs with
  | .nil => false
  | .cons w t => w = v || t.mem v

/-- Whether every element of a Python list is a string (`', '.join`
requires this, otherwise Python raises `TypeError`). -/
def ValueList.allStrings : ValueList → Bool
  | .nil => true
  | .cons (.str _) t => t.allStrings
  | .cons _ _ => false

/-- Python truthiness of a value (`None`, `False`, `0`, `0.0`, `""`, `[]`,
`\x7b\x7d` are falsy). -/
def Value.truthy : Value → Bool
  | .null => false
  | .bool b => b
  | .int n => n != 0
  | .float q => q != 0
  | .str s => s != ""
  | .list .nil => false
  | .list (.cons _ _) => true
  | .obj .nil => false
  | .obj (.cons _ _ _) => true

/-- Truthiness of `d.get(k)`, where a missing key yields Python `None`. -/
def optTruthy (o : Option Value) : Bool :=
  (o.map Value.truthy).getD false

/-- The dict-literal merge `\x7b**a, **b\x7d` from `Config._load_config`:
start from `a` and insert every binding of `b` in order. -/
def mergeDicts (a : Dict) : Dict → Dict
  | .nil => a
  | .cons k v t => mergeDicts (a.insert k v) t

/-- The class attribute `Config.DEFAULT_CONFIG`, transcribed literally from
`src/config.py`. -/
def DEFAULT_CONFIG : Dict := Fields.ofList [
  ("LOOP_INTERVAL", .float (1/10)),
  ("USE_TESTNET", .bool true),
  ("DB_PATH", .str "data/trading_data.db"),
  ("LOG_LEVEL", .str "INFO"),
  ("SYMBOL", .str "BTCUSDT"),
  ("API_KEY", .str ""),
  ("API_SECRET", .str ""),
  ("EMAIL_CONFIG", Value.mkObj [
    ("enabled", .bool false),
    ("smtp_server", .str "smtp.gmail.com"),
    ("smtp_port", .int 587),
    ("sender_email", .str ""),
    ("receiver_email", .str ""),
    ("password", .str "")]),
  ("TELEGRAM_CONFIG", Value.mkObj [
    ("enabled", .bool false),
    ("token", .str ""),
    ("chat_id", .str "")]),
  ("MAX_POSITION_SIZE", .float (1/100)),
  ("MAX_RISK_PER_TRADE", .float (2/100)),
  ("MAX_DAILY_LOSS", .float (5/100)),
  ("MAX_OPEN_ORDERS", .int 10),
  ("MAX_TRADES_PER_DAY", .int 500),
  ("STRATEGY", .str "market_making"),
  ("MM_SPREAD", .float (2/1000)),
  ("MM_ORDER_SIZE", .float (1/1000)),
  ("MM_ORDER_COUNT", .int 3),
  ("MM_REFRESH_RATE", .int 1),
  ("ARBITRAGE_SYMBOLS", Value.mkList [.str "BTCUSDT", .str "ETHUSDT", .str "ETHBTC"]),
  ("MIN_PROFIT_THRESHOLD", .float (3/1000)),
  ("MOMENTUM_TIMEFRAME", .str "1m"),
  ("LOOKBACK_PERIOD", .int 20),
  ("RSI_PERIOD", .int 14),
  ("RSI_OVERBOUGHT", .int 70),
  ("RSI_OVERSOLD", .int 30),
  ("EMA_SHORT", .int 9),
  ("EMA_LONG", .int 21),
  ("AVAILABLE_PAIRS", Value.mkList [
    .str "BTCUSDT", .str "ETHUSDT", .str "BNBUSDT", .str "ADAUSDT",
    .str "SOLUSDT", .str "XRPUSDT", .str "DOTUSDT", .str "DOGEUSDT",
    .str "AVAXUSDT", .str "MATICUSDT"]),
  ("AVAILABLE_TIMEFRAMES", Value.mkList [
    .str "1s", .str "1m", .str "3m", .str "5m", .str "15m",
    .str "30m", .str "1h", .str "4h", .str "1d"])
]

/-- Parsed content of a file on disk, as seen through `json.load`:
an object, some other valid JSON value (merging it then raises
`TypeError`), or text that does not parse (raising `JSONDecodeError`). -/
inductive FileContent where
  | obj (d : Dict)
  | nonObject (v : Value)
  | malformed
deriving DecidableEq

/-- The file system: existing files by path. -/
abbrev FS := List (String × FileContent)

/-- File lookup: `os.path.exists` plus `json.load`. -/
def FS.read : FS → String → Option FileContent
  | [], _ => none
  | p :: t, k => if p.1 = k then some p.2 else FS.read t k

/-- Writing a file, replacing any previous content. -/
def FS.write : FS → String → FileContent → FS
  | [], k, c => [(k, c)]
  | p :: t, k, c => if p.1 = k then (k, c) :: t else p :: FS.write t k c

/-- The process environment, `os.environ.get`. -/
def Env : Type := String → Option String

/-- The empty environment. -/
def emptyEnv : Env := fun _ => none

/-- `os.environ.get(name)` used as a condition: Python treats a missing
variable (`None`) and an empty string as falsy, so the code ignores both. -/
def envTruthy (env : Env) (name : String) : Option String :=
  match env name with
  | some s => if s = "" then none else some s
  | none => none

/-- Digits of a numeral string as a natural number, `none` if any
character is not a digit or the string is empty. -/
def digitsToNat : List Char → Option Nat
  | [] => none
  | cs =>
    if cs.all Char.isDigit then
      some (cs.foldl (fun acc c => acc * 10 + (c.toNat - 48)) 0)
    else none

/-- Python `float(x)` on a plain decimal numeral: optional sign, an
integer part and an optional fractional part. Exponent notation, `inf`,
`nan` and surrounding whitespace — which Python would also accept — are
outside the model; on every other string Python raises `ValueError`,
modelled as `none`. -/
def pyFloat (s : String) : Option Rat :=
  let (sign, body) : Rat × String :=
    if s.startsWith "-" then (-1, s.drop 1)
    else if s.startsWith "+" then (1, s.drop 1) else (1, s)
  let cs := body.toList
  match cs.splitOn '.' with
  | [ip] => (digitsToNat ip).map (fun n => sign * n)
  | [ip, fp] =>
    match ip, fp with
    | [], [] => none
    | [], _ => (digitsToNat fp).map (fun f => sign * f / (10 : Rat) ^ fp.length)
    | _, [] => (digitsToNat ip).map (fun n => sign * n)
    | _, _ =>
      match digitsToNat ip, digitsToNat fp with
      | some n, some f => some (sign * (n + (f : Rat) / (10 : Rat) ^ fp.length))
      | _, _ => none
  | _ => none

/-- Log lines emitted by `config.py`, by call site (recorded on the
successful control paths). -/
inductive LogEvent where
  | configLoaded
  | configLoadError
  | configFileNotFound
  | defaultConfigSaved
  | defaultConfigSaveError
  | apiKeyLoadedFromEnv
  | apiSecretLoadedFromEnv
  | envLoaded (key : String)
  | apiKeysMissingWarning
  | symbolWarning
  | strategyWarning
  | configSaved
  | unknownKeyWarning (key : String)
  | configUpdated
deriving DecidableEq

/-- An uncaught Python exception escaping the configuration code. -/
inductive PyErr where
  | typeError
  | valueError
deriving DecidableEq

/-- `os.path.dirname` (POSIX): everything up to the last slash, with
trailing slashes stripped unless the result consists only of slashes. -/
def dirname (p : String) : String :=
  let cs := p.toList
  if cs.contains '/' then
    let afterLen := (cs.reverse.takeWhile (fun c => c ≠ '/')).length
    let head := cs.take (cs.length - afterLen)
    if head.all (fun c => c = '/') then String.mk head
    else String.mk ((head.reverse.dropWhile (fun c => c = '/')).reverse)
  else ""

namespace Config

/-- `Config._save_default_config`: `os.makedirs(os.path.dirname(path),
exist_ok=True)` followed by writing `DEFAULT_CONFIG`. For a path with no
directory component `os.makedirs ""` raises `FileNotFoundError`, which the
method's own `except` catches and logs, so no file is created. -/
def save_default_config (fs : FS) (path : String) : FS × List LogEvent :=
  if dirname path = "" then
    (fs, [.defaultConfigSaveError])
  else
    (fs.write path (.obj DEFAULT_CONFIG), [.defaultConfigSaved])

/-- `Config._load_config`: read and merge the file over the defaults. Any
exception while reading or merging (missing parse, non-object JSON) is
caught and the defaults are used instead; a missing file additionally
triggers `_save_default_config`. -/
def load_config (fs : FS) (path : String) : Dict × FS × List LogEvent :=
  match fs.read path with
  | some (.obj user) => (mergeDicts DEFAULT_CONFIG user, fs, [.configLoaded])
  | some (.nonObject _) => (DEFAULT_CONFIG, fs, [.configLoadError])
  | some .malformed => (DEFAULT_CONFIG, fs, [.configLoadError])
  | none =>
    let (fs2, l2) := save_default_config fs path
    (DEFAULT_CONFIG, fs2, .configFileNotFound :: l2)

/-- One row of the `env_mapping` table in `Config._load_env_variables`:
environment variable name, target configuration key, type converter. -/
structure EnvEntry where
  envName : String
  key : String
  conv : String → Option Value

/-- The enumerated `env_mapping` table, in dictionary order. A converter
returning `none` models the converter raising (only `float` can). -/
def env_mapping : List EnvEntry := [
  ⟨"BOT_USE_TESTNET", "USE_TESTNET", fun s => some (.bool (s.toLower = "true"))⟩,
  ⟨"BOT_SYMBOL", "SYMBOL", fun s => some (.str s)⟩,
  ⟨"BOT_MAX_POSITION_SIZE", "MAX_POSITION_SIZE", fun s => (pyFloat s).map .float⟩,
  ⟨"BOT_STRATEGY", "STRATEGY", fun s => some (.str s)⟩
]

/-- The loop over `env_mapping` in `Config._load_env_variables`. -/
def applyEnvMapping (env : Env) : List EnvEntry → Dict → List LogEvent →
    Except PyErr (Dict × List LogEvent)
  | [], d, l => .ok (d, l)
  | e :: rest, d, l =>
    match envTruthy env e.envName with
    | none => applyEnvMapping env rest d l
    | some s =>
      match e.conv s with
      | some v => applyEnvMapping env rest (d.insert e.key v) (l ++ [.envLoaded e.key])
      | none => .error .valueError

/-- Second half of `Config._load_env_variables`: the `BINANCE_API_SECRET`
step, then the enumerated `env_mapping` table. -/
def load_env_secret (env : Env) (d1 : Dict) (l1 : List LogEvent) :
    Except PyErr (Dict × List LogEvent) :=
  match envTruthy env "BINANCE_API_SECRET" with
  | some s =>
    applyEnvMapping env env_mapping (d1.insert "API_SECRET" (.str s))
      (l1 ++ [.apiSecretLoadedFromEnv])
  | none => applyEnvMapping env env_mapping d1 l1

/-- `Config._load_env_variables`: the two API-credential variables, then
the enumerated `env_mapping` table. -/
def load_env_variables (env : Env) (d0 : Dict) :
    Except PyErr (Dict × List LogEvent) :=
  match envTruthy env "BINANCE_API_KEY" with
  | some s =>
    load_env_secret env (d0.insert "API_KEY" (.str s)) [.apiKeyLoadedFromEnv]
  | none => load_env_secret env d0 []

/-- The `valid_strategies` list of `Config._validate_config`. -/
def valid_strategies : List String := ["market_making", "arbitrage", "momentum"]

/-- `Config._validate_config`: warnings only — missing credentials, a
symbol outside `AVAILABLE_PAIRS`, a strategy outside `valid_strategies`.
`SYMBOL in AVAILABLE_PAIRS` raises `TypeError` when the pairs value is not
a list, and formatting the warning raises when an element is not a string
(Python would additionally allow a substring test when both sides are
strings; none of the configurations in the theorems below exercise that). -/
def validate_config (d : Dict) : Except PyErr (List LogEvent) :=
  let apiW : List LogEvent :=
    if !optTruthy (d.get "API_KEY") || !optTruthy (d.get "API_SECRET") then
      [.apiKeysMissingWarning]
    else []
  let strategyValid : Bool :=
    match d.get "STRATEGY" with
    | some v => (valid_strategies.map Value.str).contains v
    | none => false
  let stratW : List LogEvent := if strategyValid then [] else [.strategyWarning]
  match d.get "AVAILABLE_PAIRS" with
  | some (.list pairs) =>
    let member : Bool :=
      match d.get "SYMBOL" with
      | some v => pairs.mem v
      | none => pairs.mem .null
    if member then .ok (apiW ++ stratW)
    else if pairs.allStrings then .ok (apiW ++ [.symbolWarning] ++ stratW)
    else .error .typeError
  | _ => .error .typeError

/-- `Config.__init__` up to the `setattr` loop: load the file, apply the
environment, validate. Returns the final `config_data` (resolution), the
file system after the default-file side effect, and the log. The spec
calls this `resolve(filePath, environment)`. -/
def resolve (fs : FS) (env : Env) (path : String) :
    Except PyErr Dict × FS × List LogEvent :=
  let t := load_config fs path
  match load_env_variables env t.1 with
  | .error e => (.error e, t.2.1, t.2.2)
  | .ok p =>
    match validate_config p.1 with
    | .error e => (.error e, t.2.1, t.2.2 ++ p.2)
    | .ok warns => (.ok p.1, t.2.1, t.2.2 ++ p.2 ++ warns)

/-- The `Config` object after `__init__`: the configured path, the
`config_data` dictionary, and the instance attributes set by the
`setattr` loop (one attribute per `config_data` key). `main.py` later
assigns `config.USE_TESTNET = True` directly, which changes the attribute
but not `config_data`, so the two are tracked separately. -/
structure Obj where
  path : String
  data : Dict
  attrs : Dict
deriving DecidableEq

/-- `Config(config_path=path)`: resolve, then run the `setattr` loop. -/
def init (fs : FS) (env : Env) (path : String) :
    Except PyErr Obj × FS × List LogEvent :=
  let r := resolve fs env path
  match r.1 with
  | .ok d => (.ok ⟨path, d, d⟩, r.2.1, r.2.2)
  | .error e => (.error e, r.2.1, r.2.2)

/-- The dict comprehension in `Config.save`: the attribute value for every
`DEFAULT_CONFIG` key the object has (`hasattr` guard), in
`DEFAULT_CONFIG` key order. -/
def pickAttrs (attrs : Dict) : List String → Dict
  | [] => .nil
  | k :: t =>
    match attrs.get k with
    | some v => .cons k v (pickAttrs attrs t)
    | none => pickAttrs attrs t

/-- The dictionary `Config.save` serializes to the configured path. -/
def saveDict (c : Obj) : Dict :=
  pickAttrs c.attrs DEFAULT_CONFIG.keys

/-- `Config.save`: write the restriction of the attributes to the default
key set, wholesale, to `config_path`. The write is modelled as succeeding;
an OS-level failure would be caught and logged by the method's `except`. -/
def save (c : Obj) (fs : FS) : FS × List LogEvent :=
  (fs.write c.path (.obj (saveDict c)), [.configSaved])

/-- The `for key, value in new_config.items()` loop of `Config.update`:
keys in the default set overwrite both the attribute and `config_data` in
place; unknown keys are dropped with a warning. -/
def updateLoop (c : Obj) : Dict → List LogEvent → Obj × List LogEvent
  | .nil, l => (c, l)
  | .cons k v t, l =>
    if DEFAULT_CONFIG.hasKey k then
      updateLoop ⟨c.path, c.data.insert k v, c.attrs.insert k v⟩ t l
    else
      updateLoop c t (l ++ [.unknownKeyWarning k])

/-- `Config.update`: mutate the object, then `save`. The returned `Obj` is
the state of the same live object after the call (Python mutates `self`
and returns `None`). -/
def update (c : Obj) (newConfig : Dict) (fs : FS) :
    Obj × FS × List LogEvent :=
  let p := updateLoop c newConfig []
  let q := save p.1 fs
  (p.1, q.1, p.2 ++ q.2 ++ [.configUpdated])

end Config

/-- The strategy engine constructed by `initialize_components`, carrying
the configuration attributes passed to its constructor. -/
inductive Engine where
  | marketMaking (symbol spread orderSize : Option Value)
  | arbitrage (symbols minProfitThreshold : Option Value)
  | momentum (symbol timeframe lookbackPeriod : Option Value)
deriving DecidableEq

/-- The strategy name an engine was selected by. -/
def Engine.kind : Engine → String
  | .marketMaking _ _ _ => "market_making"
  | .arbitrage _ _ => "arbitrage"
  | .momentum _ _ _ => "momentum"

/-- The `if/elif` chain on `config.STRATEGY` in `initialize_components`;
`none` models the final `raise ValueError` for an unrecognized name. (A
missing `STRATEGY` attribute would raise `AttributeError` instead —
equally fatal before the loop and not distinguished here.) -/
def engineFor (attrs : Dict) : Option Engine :=
  if attrs.get "STRATEGY" = some (.str "market_making") then
    some (.marketMaking (attrs.get "SYMBOL") (attrs.get "MM_SPREAD")
      (attrs.get "MM_ORDER_SIZE"))
  else if attrs.get "STRATEGY" = some (.str "arbitrage") then
    some (.arbitrage (attrs.get "ARBITRAGE_SYMBOLS")
      (attrs.get "MIN_PROFIT_THRESHOLD"))
  else if attrs.get "STRATEGY" = some (.str "momentum") then
    some (.momentum (attrs.get "SYMBOL") (attrs.get "MOMENTUM_TIMEFRAME")
      (attrs.get "LOOKBACK_PERIOD"))
  else none

/-- The command-line arguments accepted by `parse_arguments`. `argparse`
constrains `--strategy` to `choices=['market_making','arbitrage',
'momentum']`; theorems about it carry that constraint as a hypothesis. -/
structure Args where
  configPath : String
  debug : Bool
  backtest : Bool
  strategy : String
deriving DecidableEq

/-- `main.py` line `config.USE_TESTNET = True` under `--backtest`: it sets
the instance attribute only, `config_data` is untouched. -/
def attrsAfterArgs (backtest : Bool) (data : Dict) : Dict :=
  if backtest then data.insert "USE_TESTNET" (.bool true) else data

/-- The externally determined outcome of one main-loop iteration body
(market fetch, signal generation, signal processing, performance update,
alert check): it either completes, taking `duration` seconds of wall
time, or some collaborator raises. -/
inductive IterOutcome where
  | ok (duration : Rat)
  | fail
deriving DecidableEq

/-- Whether an iteration body completes, ignoring its duration. -/
def IterOutcome.completes : IterOutcome → Bool
  | .ok _ => true
  | .fail => false

/-- How control left the `while running` loop. `outOfScript` marks runs
whose scripted world is too short to determine an exit — a model artifact
excluded by hypothesis where it matters. -/
inductive LoopExit where
  | graceful
  | raised
  | outOfScript
deriving DecidableEq

/-- Observable events of the supervisor: each `time.sleep` call with the
value passed to it, the critical-failure alert of the `except` block, and
the teardown calls of the `finally` block. `driftLogged` and
`shutdownNotified` are in the vocabulary because the specification expects
a loop-drift log line and an alert-sink shutdown notification; `main.py`
has no corresponding calls, so the model never emits either. -/
inductive Ev where
  | slept (v : Value)
  | driftLogged
  | criticalAlert
  | closedClient
  | flushedState
  | shutdownNotified
deriving DecidableEq

/-- Whether an event is one of the drain-phase actions the specification
enumerates (close the client, flush state, notify the alert sink). -/
def Ev.teardown : Ev → Bool
  | .closedClient => true
  | .flushedState => true
  | .shutdownNotified => true
  | _ => false

/-- Values `time.sleep` accepts: `int`, `float`, and `bool` (a `bool` is
an `int` in Python); anything else raises `TypeError`. -/
def Value.sleepable : Value → Bool
  | .int _ => true
  | .float _ => true
  | .bool _ => true
  | _ => false

/-- Whether the cancellation flag `running` reads `False` at the `i`-th
`while running` check: a signal delivered during iteration `cancelAt - 1`
(or before the loop, for `cancelAt = 0`) is first observed at check
`cancelAt` — cancellation in `main.py` is cooperative, the in-flight
iteration always completes. -/
def stopRequested (cancelAt : Option Nat) (i : Nat) : Bool :=
  match cancelAt with
  | some n => n ≤ i
  | none => false

/-- The `while running` loop of `main`: at each check, exit gracefully if
cancellation was observed; otherwise run the scripted iteration body; on
completion sleep `config.LOOP_INTERVAL` unconditionally and continue, on a
collaborator failure leave with the exception. Returns the exit kind, the
events in order, and the number of completed iterations. -/
def runLoop (interval : Option Value) (cancelAt : Option Nat) :
    List IterOutcome → Nat → LoopExit × List Ev × Nat
  | script, i =>
    if stopRequested cancelAt i then (.graceful, [], 0)
    else
      match script with
      | [] => (.outOfScript, [], 0)
      | .fail :: _ => (.raised, [], 0)
      | .ok _ :: rest =>
        match interval with
        | some v =>
          if v.sleepable then
            let r := runLoop interval cancelAt rest (i + 1)
            (r.1, .slept v :: r.2.1, r.2.2 + 1)
          else (.raised, [], 0)
        | none => (.raised, [], 0)

/-- The `finally` block of `main`: `binance_client.close()` then
`db_manager.save_state()`. An exception from either propagates out of
`main` (there is no inner handler), skipping the rest; the first
component tells whether that happened. -/
def drainRun (closeRaises saveRaises : Bool) : Bool × List Ev :=
  if closeRaises then (true, [])
  else if saveRaises then (true, [.closedClient])
  else (false, [.closedClient, .flushedState])

/-- The externally determined behaviour of the collaborators for one
process run: whether client construction plus the `get_account_info`
check succeeds, the scripted iteration outcomes, when cancellation is
first observed, and whether the teardown calls raise. -/
structure World where
  connectOk : Bool
  script : List IterOutcome
  cancelAt : Option Nat
  closeRaises : Bool
  saveRaises : Bool
deriving DecidableEq

/-- Everything observable about one run of `main()`: the process exit
code (Python exits `0` on a normal return from `main` and non-zero on an
uncaught exception), the resolved `config_data` if resolution succeeded,
the constructed strategy engine if construction succeeded, how the main
loop exited if it was entered, completed iterations, the event trace, the
final file system, and the configuration log. -/
structure ProcResult where
  exitCode : Nat
  resolved : Option Dict
  engine : Option Engine
  loopExit : Option LoopExit
  iters : Nat
  events : List Ev
  fs : FS
  logs : List LogEvent
deriving DecidableEq

/-- The part of `main()` from entering the `try` block onwards, given the
resolved configuration, the `--backtest` flag, and the constructed engine:
run the `while running` loop, on a caught exception send the critical
alert, then run the `finally` teardown; a teardown exception propagates
out of `main` (exit code 1), otherwise `main` returns normally (exit
code 0). -/
def afterInit (data : Dict) (backtest : Bool) (w : World) (fs1 : FS)
    (logs : List LogEvent) (eng : Engine) : ProcResult :=
  let lr := runLoop ((attrsAfterArgs backtest data).get "LOOP_INTERVAL")
    w.cancelAt w.script 0
  match lr.1 with
  | .outOfScript =>
    ⟨0, some data, some eng, some .outOfScript, lr.2.2, lr.2.1, fs1, logs⟩
  | ex =>
    let evs := lr.2.1 ++ (if ex = .raised then [.criticalAlert] else [])
    let dr := drainRun w.closeRaises w.saveRaises
    ⟨if dr.1 then 1 else 0, some data, some eng, some ex, lr.2.2,
      evs ++ dr.2, fs1, logs⟩

/-- `main()` from `src/main.py`: parse arguments (already done in
`Args`), resolve the configuration (an uncaught `Config` exception exits
non-zero), force the testnet attribute under `--backtest`, construct the
collaborators and the strategy engine (`initialize_components`; a failure
is uncaught and exits non-zero before the loop), run the main loop, and
on leaving it — by cancellation or by a caught collaborator failure — run
the `finally` teardown and return, which exits `0` unless the teardown
itself raised. -/
def mainProcess (fs0 : FS) (env : Env) (args : Args) (w : World) : ProcResult :=
  let r := Config.resolve fs0 env args.configPath
  match r.1 with
  | .error _ =>
    ⟨1, none, none, none, 0, [], r.2.1, r.2.2⟩
  | .ok data =>
    if w.connectOk then
      match engineFor (attrsAfterArgs args.backtest data) with
      | some eng => afterInit data args.backtest w r.2.1 r.2.2 eng
      | none => ⟨1, some data, none, none, 0, [], r.2.1, r.2.2⟩
    else ⟨1, some data, none, none, 0, [], r.2.1, r.2.2⟩

/-- The value a successfully resolved configuration holds for a key
(`none` when resolution failed or the key is absent). -/
def resolveGet (fs : FS) (env : Env) (path k : String) : Option Value :=
  match (Config.resolve fs env path).1 with
  | .ok d => d.get k
  | .error _ => none

/-- The environment-variable names `Config._load_env_variables` reads (the
two credential variables and the `env_mapping` table). -/
def allEnvNames : List String :=
  ["BINANCE_API_KEY", "BINANCE_API_SECRET", "BOT_USE_TESTNET",
   "BOT_SYMBOL", "BOT_MAX_POSITION_SIZE", "BOT_STRATEGY"]

theorem Fields.get_insert_self : ∀ (d : Dict) (k : String) (v : Value),
    (d.insert k v).get k = some v
  | .nil, k, v => by simp [Fields.insert, Fields.get]
  | .cons k0 v0 t, k, v => by
    by_cases h : k0 = k
    · simp [Fields.insert, h, Fields.get]
    · simp [Fields.insert, h, Fields.get, Fields.get_insert_self t k v]

theorem Fields.get_insert_ne : ∀ (d : Dict) (k k' : String) (v : Value),
    k ≠ k' → (d.insert k v).get k' = d.get k'
  | .nil, k, k', v, h => by simp [Fields.insert, Fields.get, h]
  | .cons k0 v0 t, k, k', v, h => by
    by_cases h0 : k0 = k
    · subst h0; simp [Fields.insert, Fields.get, h]
    · simp [Fields.insert, h0, Fields.get, Fields.get_insert_ne t k k' v h]

theorem Fields.get_eq_none_iff : ∀ (d : Dict) (k : String),
    d.get k = none ↔ k ∉ d.keys
  | .nil, k => by simp [Fields.get, Fields.keys]
  | .cons k0 v0 t, k => by
    by_cases h : k0 = k
    · subst h; simp [Fields.get, Fields.keys]
    · simp [Fields.get, h, Fields.keys, Fields.get_eq_none_iff t k, Ne.symm h]

theorem Fields.hasKey_iff (d : Dict) (k : String) :
    d.hasKey k = true ↔ k ∈ d.keys := by
  simp [Fields.hasKey]

theorem Fields.get_eq_none_of_hasKey_false (d : Dict) (k : String)
    (h : d.hasKey k = false) : d.get k = none := by
  rw [Fields.get_eq_none_iff]
  intro hmem
  rw [← Fields.hasKey_iff] at hmem
  rw [h] at hmem
  exact Bool.false_ne_true hmem

theorem mergeDicts_get : ∀ (u : Dict), u.keys.Nodup → ∀ (a : Dict) (k : String),
    (mergeDicts a u).get k =
      match u.get k with
      | some v => some v
      | none => a.get k
  | .nil, _, a, k => by simp [mergeDicts, Fields.get]
  | .cons k1 v1 t, hnd, a, k => by
    rw [Fields.keys] at hnd
    rw [List.nodup_cons] at hnd
    by_cases h : k1 = k
    · subst h
      have ht : t.get k1 = none := (Fields.get_eq_none_iff t k1).mpr hnd.1
      simp [mergeDicts, mergeDicts_get t hnd.2, Fields.get, ht,
        Fields.get_insert_self]
    · simp [mergeDicts, mergeDicts_get t hnd.2, Fields.get, h,
        Fields.get_insert_ne _ _ _ _ h]

theorem pickAttrs_get (attrs : Dict) (ks : List String) (hnd : ks.Nodup)
    (k : String) :
    (Config.pickAttrs attrs ks).get k =
      if k ∈ ks then attrs.get k else none := by
  induction ks with
  | nil => simp [Config.pickAttrs, Fields.get]
  | cons k0 t ih =>
    rw [List.nodup_cons] at hnd
    by_cases h : k0 = k
    · subst h
      cases ha : attrs.get k0 with
      | some v => simp [Config.pickAttrs, ha, Fields.get]
      | none => simp [Config.pickAttrs, ha, ih hnd.2, hnd.1]
    · cases ha : attrs.get k0 with
      | some v =>
        simp [Config.pickAttrs, ha, Fields.get, h, ih hnd.2, Ne.symm h]
      | none =>
        simp [Config.pickAttrs, ha, ih hnd.2, Ne.symm h]

theorem FS.read_write_self (fs : FS) (p : String) (c : FileContent) :
    (fs.write p c).read p = some c := by
  induction fs with
  | nil => simp [FS.write, FS.read]
  | cons q t ih =>
    by_cases h : q.1 = p
    · simp [FS.write, h, FS.read]
    · simp [FS.write, h, FS.read, ih]

theorem Fields.hasKey_eq_false_iff (d : Dict) (k : String) :
    d.hasKey k = false ↔ k ∉ d.keys := by
  rw [← Fields.hasKey_iff]
  cases h : d.hasKey k <;> simp [h]

theorem Fields.hasKey_cons (k0 : String) (v0 : Value) (t : Fields) (k : String) :
    (Fields.cons k0 v0 t).hasKey k = (k = k0 || t.hasKey k) := by
  by_cases h : k = k0 <;> simp [Fields.hasKey, Fields.keys, h]

theorem updateLoop_path : ∀ (c : Config.Obj) (nc : Dict) (l : List LogEvent),
    (Config.updateLoop c nc l).1.path = c.path
  | _, .nil, _ => rfl
  | c, .cons k0 v0 t, l => by
    by_cases h : DEFAULT_CONFIG.hasKey k0 = true
    · simp [Config.updateLoop, h, updateLoop_path _ t _]
    · simp [Config.updateLoop, h, updateLoop_path c t _]

theorem updateLoop_not_has : ∀ (c : Config.Obj) (nc : Dict) (l : List LogEvent)
    (k : String), nc.hasKey k = false →
    (Config.updateLoop c nc l).1.data.get k = c.data.get k
    ∧ (Config.updateLoop c nc l).1.attrs.get k = c.attrs.get k
  | _, .nil, _, _, _ => ⟨rfl, rfl⟩
  | c, .cons k0 v0 t, l, k, h => by
    rw [Fields.hasKey_cons] at h
    rw [Bool.or_eq_false_iff] at h
    have hne : k0 ≠ k := fun he => by simp [he] at h
    by_cases hd : DEFAULT_CONFIG.hasKey k0 = true
    · have ih := updateLoop_not_has
        ⟨c.path, c.data.insert k0 v0, c.attrs.insert k0 v0⟩ t l k h.2
      simp only [Config.updateLoop, hd, if_true] at *
      rw [ih.1, ih.2]
      constructor
      · exact Fields.get_insert_ne _ _ _ _ hne
      · exact Fields.get_insert_ne _ _ _ _ hne
    · have ih := updateLoop_not_has c t (l ++ [.unknownKeyWarning k0]) k h.2
      simp only [Config.updateLoop, hd, if_false] at *
      simp only [Bool.not_eq_true] at hd
      simp [hd, ih.1, ih.2]

theorem updateLoop_get : ∀ (c : Config.Obj) (nc : Dict) (l : List LogEvent)
    (k : String) (v : Value), nc.keys.Nodup → nc.get k = some v →
    DEFAULT_CONFIG.hasKey k = true →
    (Config.updateLoop c nc l).1.data.get k = some v
    ∧ (Config.updateLoop c nc l).1.attrs.get k = some v
  | _, .nil, _, _, _, _, hget, _ => by simp [Fields.get] at hget
  | c, .cons k0 v0 t, l, k, v, hnd, hget, hdk => by
    rw [Fields.keys] at hnd
    rw [List.nodup_cons] at hnd
    by_cases h : k0 = k
    · subst h
      rw [Fields.get] at hget
      simp only [eq_self_iff_true, if_true, Option.some.injEq] at hget
      subst hget
      have ht : t.hasKey k0 = false := (Fields.hasKey_eq_false_iff t k0).mpr hnd.1
      have ih := updateLoop_not_has
        ⟨c.path, c.data.insert k0 v0, c.attrs.insert k0 v0⟩ t l k0 ht
      simp only [Config.updateLoop, hdk, if_true]
      rw [ih.1, ih.2]
      constructor
      · exact Fields.get_insert_self _ _ _
      · exact Fields.get_insert_self _ _ _
    · rw [Fields.get] at hget
      simp only [if_neg h] at hget
      by_cases hd : DEFAULT_CONFIG.hasKey k0 = true
      · simp only [Config.updateLoop, hd, if_true]
        exact updateLoop_get _ t l k v hnd.2 hget hdk
      · simp only [Config.updateLoop, hd, if_false]
        simp only [Bool.not_eq_true] at hd
        simp only [hd, Bool.false_eq_true, if_false]
        exact updateLoop_get c t _ k v hnd.2 hget hdk

theorem updateLoop_log_mono : ∀ (c : Config.Obj) (nc : Dict)
    (l : List LogEvent) (x : LogEvent), x ∈ l →
    x ∈ (Config.updateLoop c nc l).2
  | _, .nil, _, _, hx => hx
  | c, .cons k0 v0 t, l, x, hx => by
    by_cases hd : DEFAULT_CONFIG.hasKey k0 = true
    · simp only [Config.updateLoop, hd, if_true]
      exact updateLoop_log_mono _ t l x hx
    · simp only [Config.updateLoop, hd, if_false]
      simp only [Bool.not_eq_true] at hd
      simp only [hd, Bool.false_eq_true, if_false]
      exact updateLoop_log_mono c t _ x (by simp [hx])

theorem updateLoop_warn : ∀ (c : Config.Obj) (nc : Dict) (l : List LogEvent)
    (k : String), nc.hasKey k = true → DEFAULT_CONFIG.hasKey k = false →
    LogEvent.unknownKeyWarning k ∈ (Config.updateLoop c nc l).2
  | _, .nil, _, k, hk, _ => by simp [Fields.hasKey, Fields.keys] at hk
  | c, .cons k0 v0 t, l, k, hk, hdk => by
    by_cases h : k0 = k
    · subst h
      simp only [Config.updateLoop, hdk, Bool.false_eq_true, if_false]
      exact updateLoop_log_mono c t _ _ (by simp)
    · rw [Fields.hasKey_cons] at hk
      have ht : t.hasKey k = true := by
        rcases Bool.or_eq_true_iff.mp hk with h1 | h1
        · exact absurd (by simpa using h1) (Ne.symm h)
        · exact h1
      by_cases hd : DEFAULT_CONFIG.hasKey k0 = true
      · simp only [Config.updateLoop, hd, if_true]
        exact updateLoop_warn _ t l k ht hdk
      · simp only [Config.updateLoop, hd, if_false]
        simp only [Bool.not_eq_true] at hd
        simp only [hd, Bool.false_eq_true, if_false]
        exact updateLoop_warn c t _ k ht hdk

theorem applyEnvMapping_preserve (env : Env) (k : String) :
    ∀ (entries : List Config.EnvEntry) (d : Dict) (l : List LogEvent)
      (p : Dict × List LogEvent),
      (∀ e ∈ entries, e.key ≠ k) →
      Config.applyEnvMapping env entries d l = .ok p →
      p.1.get k = d.get k := by
  intro entries
  induction entries with
  | nil =>
    intro d l p _ h
    simp only [Config.applyEnvMapping, Except.ok.injEq, Prod.ext_iff] at h
    rw [← h.1]
  | cons e rest ih =>
    intro d l p hk h
    cases he : envTruthy env e.envName with
    | none =>
      simp only [Config.applyEnvMapping, he] at h
      exact ih d l p (fun e' hm => hk e' (List.mem_cons_of_mem _ hm)) h
    | some s =>
      cases hc : e.conv s with
      | none => simp [Config.applyEnvMapping, he, hc] at h
      | some v =>
        simp only [Config.applyEnvMapping, he, hc] at h
        have hrest := ih _ _ p (fun e' hm => hk e' (List.mem_cons_of_mem _ hm)) h
        rw [hrest, Fields.get_insert_ne _ _ _ _ (hk e (List.mem_cons_self _ _))]

theorem applyEnvMapping_mem_get (env : Env) :
    ∀ (entries : List Config.EnvEntry) (e : Config.EnvEntry) (s : String)
      (d : Dict) (l : List LogEvent) (p : Dict × List LogEvent),
      e ∈ entries → (entries.map Config.EnvEntry.key).Nodup →
      envTruthy env e.envName = some s →
      Config.applyEnvMapping env entries d l = .ok p →
      p.1.get e.key = e.conv s := by
  intro entries
  induction entries with
  | nil => intro e s d l p hm; exact absurd hm (List.not_mem_nil _)
  | cons e0 rest ih =>
    intro e s d l p hm hnd hs h
    rw [List.map_cons, List.nodup_cons] at hnd
    rcases List.mem_cons.mp hm with rfl | hm'
    · simp only [Config.applyEnvMapping, hs] at h
      cases hc : e.conv s with
      | none => simp only [hc] at h; exact absurd h (by simp)
      | some v =>
        simp only [hc] at h
        have hkeys : ∀ e' ∈ rest, e'.key ≠ e.key := by
          intro e' hm' heq
          exact hnd.1 (heq ▸ List.mem_map_of_mem Config.EnvEntry.key hm')
        have hpres := applyEnvMapping_preserve env e.key rest _ _ p hkeys h
        simp [hpres, Fields.get_insert_self, hc]
    · cases he0 : envTruthy env e0.envName with
      | none =>
        simp only [Config.applyEnvMapping, he0] at h
        exact ih e s _ _ p hm' hnd.2 hs h
      | some s0 =>
        cases hc0 : e0.conv s0 with
        | none => simp [Config.applyEnvMapping, he0, hc0] at h
        | some v0 =>
          simp only [Config.applyEnvMapping, he0, hc0] at h
          exact ih e s _ _ p hm' hnd.2 hs h

theorem applyEnvMapping_off (env : Env) :
    ∀ (entries : List Config.EnvEntry) (d : Dict) (l : List LogEvent),
      (∀ e ∈ entries, envTruthy env e.envName = none) →
      Config.applyEnvMapping env entries d l = .ok (d, l) := by
  intro entries
  induction entries with
  | nil => intro d l _; rfl
  | cons e rest ih =>
    intro d l h
    simp only [Config.applyEnvMapping, h e (List.mem_cons_self _ _)]
    exact ih d l (fun e' hm => h e' (List.mem_cons_of_mem _ hm))

theorem load_env_variables_off (env : Env) (d : Dict)
    (h : ∀ n ∈ allEnvNames, envTruthy env n = none) :
    Config.load_env_variables env d = .ok (d, []) := by
  have h1 : envTruthy env "BINANCE_API_KEY" = none := h _ (by decide)
  have h2 : envTruthy env "BINANCE_API_SECRET" = none := h _ (by decide)
  have hmap : ∀ e ∈ Config.env_mapping, envTruthy env e.envName = none := by
    intro e hm
    simp only [Config.env_mapping, List.mem_cons, List.not_mem_nil, or_false] at hm
    rcases hm with rfl | rfl | rfl | rfl
    · exact h _ (by decide)
    · exact h _ (by decide)
    · exact h _ (by decide)
    · exact h _ (by decide)
  simp only [Config.load_env_variables, h1, Config.load_env_secret, h2]
  exact applyEnvMapping_off env Config.env_mapping d [] hmap

theorem load_env_variables_ok_get (env : Env) (e : Config.EnvEntry) (s : String)
    (d0 : Dict) (p : Dict × List LogEvent)
    (hm : e ∈ Config.env_mapping) (hs : envTruthy env e.envName = some s)
    (h : Config.load_env_variables env d0 = .ok p) :
    p.1.get e.key = e.conv s := by
  have hnd : (Config.env_mapping.map Config.EnvEntry.key).Nodup := by decide
  cases h1 : envTruthy env "BINANCE_API_KEY" with
  | none =>
    simp only [Config.load_env_variables, h1] at h
    cases h2 : envTruthy env "BINANCE_API_SECRET" with
    | none =>
      simp only [Config.load_env_secret, h2] at h
      exact applyEnvMapping_mem_get env Config.env_mapping e s _ _ p hm hnd hs h
    | some s2 =>
      simp only [Config.load_env_secret, h2] at h
      exact applyEnvMapping_mem_get env Config.env_mapping e s _ _ p hm hnd hs h
  | some s1 =>
    simp only [Config.load_env_variables, h1] at h
    cases h2 : envTruthy env "BINANCE_API_SECRET" with
    | none =>
      simp only [Config.load_env_secret, h2] at h
      exact applyEnvMapping_mem_get env Config.env_mapping e s _ _ p hm hnd hs h
    | some s2 =>
      simp only [Config.load_env_secret, h2] at h
      exact applyEnvMapping_mem_get env Config.env_mapping e s _ _ p hm hnd hs h

theorem resolve_ok_elim (fs : FS) (env : Env) (path : String) (cfg : Dict)
    (h : (Config.resolve fs env path).1 = .ok cfg) :
    ∃ l2, Config.load_env_variables env (Config.load_config fs path).1
      = .ok (cfg, l2) := by
  simp only [Config.resolve] at h
  cases hle : Config.load_env_variables env (Config.load_config fs path).1 with
  | error e => rw [hle] at h; simp at h
  | ok p =>
    rw [hle] at h
    dsimp only at h
    cases hv : Config.validate_config p.1 with
    | error e => rw [hv] at h; simp at h
    | ok w =>
      rw [hv] at h
      simp only [Except.ok.injEq] at h
      refine ⟨p.2, ?_⟩
      exact congrArg Except.ok (by rw [← h])

theorem resolve_file_off (fs : FS) (env : Env) (path : String) (user : Dict)
    (cfg : Dict) (hr : fs.read path = some (.obj user))
    (henv : ∀ n ∈ allEnvNames, envTruthy env n = none)
    (h : (Config.resolve fs env path).1 = .ok cfg) :
    cfg = mergeDicts DEFAULT_CONFIG user := by
  obtain ⟨l2, hle⟩ := resolve_ok_elim fs env path cfg h
  have hlc : (Config.load_config fs path).1 = mergeDicts DEFAULT_CONFIG user := by
    simp [Config.load_config, hr]
  rw [hlc, load_env_variables_off env _ henv] at hle
  simp only [Except.ok.injEq, Prod.mk.injEq] at hle
  exact hle.1.symm

theorem runLoop_events_slept (iv : Option Value) (c : Option Nat) :
    ∀ (s : List IterOutcome) (i : Nat) (e : Ev),
    e ∈ (runLoop iv c s i).2.1 → ∃ v, e = .slept v ∧ iv = some v := by
  intro s
  induction s with
  | nil =>
    intro i e he
    rw [runLoop.eq_def] at he
    by_cases h : stopRequested c i = true <;> simp [h] at he
  | cons o rest ih =>
    intro i e he
    rw [runLoop.eq_def] at he
    by_cases h : stopRequested c i = true
    · simp [h] at he
    · cases o with
      | fail => simp [h] at he
      | ok d =>
        cases iv with
        | none => simp [h] at he
        | some v =>
          by_cases hs : v.sleepable = true
          · simp only [h, Bool.false_eq_true, if_false, hs, if_true] at he
            rcases List.mem_cons.mp he with rfl | he'
            · exact ⟨v, rfl, rfl⟩
            · exact ih (i + 1) e he'
          · simp [h, hs] at he

theorem runLoop_duration (iv : Option Value) (c : Option Nat) :
    ∀ (s₁ s₂ : List IterOutcome) (i : Nat),
    s₁.map IterOutcome.completes = s₂.map IterOutcome.completes →
    runLoop iv c s₁ i = runLoop iv c s₂ i := by
  intro s₁
  induction s₁ with
  | nil =>
    intro s₂ i h
    cases s₂ with
    | nil => rfl
    | cons o t => simp at h
  | cons o₁ t₁ ih =>
    intro s₂ i h
    cases s₂ with
    | nil => simp at h
    | cons o₂ t₂ =>
      simp only [List.map_cons, List.cons.injEq] at h
      cases o₁ with
      | fail =>
        cases o₂ with
        | fail =>
          conv_lhs => rw [runLoop.eq_def]
          conv_rhs => rw [runLoop.eq_def]
        | ok d => simp [IterOutcome.completes] at h
      | ok d₁ =>
        cases o₂ with
        | fail => simp [IterOutcome.completes] at h
        | ok d₂ =>
          conv_lhs => rw [runLoop.eq_def]
          conv_rhs => rw [runLoop.eq_def]
          dsimp only
          rw [ih t₂ (i + 1) h.2]

theorem afterInit_loopExit (data : Dict) (backtest : Bool) (w : World)
    (fs1 : FS) (logs : List LogEvent) (eng : Engine) :
    (afterInit data backtest w fs1 logs eng).loopExit =
      some (runLoop ((attrsAfterArgs backtest data).get "LOOP_INTERVAL")
        w.cancelAt w.script 0).1 := by
  simp only [afterInit]
  cases hlr : (runLoop ((attrsAfterArgs backtest data).get "LOOP_INTERVAL")
      w.cancelAt w.script 0).1 <;> rfl

theorem afterInit_decomp (data : Dict) (backtest : Bool) (w : World)
    (fs1 : FS) (logs : List LogEvent) (eng : Engine)
    (hex : (runLoop ((attrsAfterArgs backtest data).get "LOOP_INTERVAL")
      w.cancelAt w.script 0).1 ≠ .outOfScript) :
    (afterInit data backtest w fs1 logs eng).events =
      (runLoop ((attrsAfterArgs backtest data).get "LOOP_INTERVAL")
        w.cancelAt w.script 0).2.1
      ++ (if (runLoop ((attrsAfterArgs backtest data).get "LOOP_INTERVAL")
            w.cancelAt w.script 0).1 = .raised then [Ev.criticalAlert] else [])
      ++ (drainRun w.closeRaises w.saveRaises).2
    ∧ (afterInit data backtest w fs1 logs eng).exitCode =
        (if (drainRun w.closeRaises w.saveRaises).1 then 1 else 0)
    ∧ (afterInit data backtest w fs1 logs eng).resolved = some data := by
  simp only [afterInit]
  cases hlr : (runLoop ((attrsAfterArgs backtest data).get "LOOP_INTERVAL")
      w.cancelAt w.script 0).1 with
  | graceful => simp
  | raised => simp
  | outOfScript => exact absurd hlr hex

theorem mainProcess_some (fs0 : FS) (env : Env) (a : Args) (w : World)
    (ex : LoopExit) (h : (mainProcess fs0 env a w).loopExit = some ex) :
    ∃ data eng,
      (Config.resolve fs0 env a.configPath).1 = .ok data
      ∧ w.connectOk = true
      ∧ engineFor (attrsAfterArgs a.backtest data) = some eng
      ∧ mainProcess fs0 env a w
          = afterInit data a.backtest w (Config.resolve fs0 env a.configPath).2.1
              (Config.resolve fs0 env a.configPath).2.2 eng := by
  simp only [mainProcess] at h
  cases hres : (Config.resolve fs0 env a.configPath).1 with
  | error e => rw [hres] at h; simp at h
  | ok data =>
    rw [hres] at h
    dsimp only at h
    by_cases hconn : w.connectOk = true
    · rw [if_pos hconn] at h
      cases heng : engineFor (attrsAfterArgs a.backtest data) with
      | none => rw [heng] at h; simp at h
      | some eng =>
        refine ⟨data, eng, rfl, hconn, heng, ?_⟩
        simp only [mainProcess]
        rw [hres]
        dsimp only
        rw [if_pos hconn, heng]
    · rw [if_neg hconn] at h
      simp at h

theorem mainProcess_none (fs0 : FS) (env : Env) (a : Args) (w : World)
    (h : (mainProcess fs0 env a w).loopExit = none) :
    (mainProcess fs0 env a w).exitCode = 1
    ∧ (mainProcess fs0 env a w).iters = 0
    ∧ (mainProcess fs0 env a w).events = [] := by
  simp only [mainProcess] at h ⊢
  cases hres : (Config.resolve fs0 env a.configPath).1 with
  | error e => exact ⟨rfl, rfl, rfl⟩
  | ok data =>
    rw [hres] at h
    dsimp only at h ⊢
    by_cases hconn : w.connectOk = true
    · rw [if_pos hconn] at h
      rw [if_pos hconn]
      cases heng : engineFor (attrsAfterArgs a.backtest data) with
      | none => exact ⟨rfl, rfl, rfl⟩
      | some eng =>
        rw [heng] at h
        rw [afterInit_loopExit] at h
        simp at h
    · rw [if_neg hconn] at h
      rw [if_neg hconn]
      exact ⟨rfl, rfl, rfl⟩

theorem drainRun_mem (c s : Bool) (e : Ev) (h : e ∈ (drainRun c s).2) :
    e = .closedClient ∨ e = .flushedState := by
  cases c <;> cases s <;> simp [drainRun] at h <;> tauto

theorem afterInit_resolved (data : Dict) (b : Bool) (w : World) (fs1 : FS)
    (logs : List LogEvent) (eng : Engine) :
    (afterInit data b w fs1 logs eng).resolved = some data := by
  simp only [afterInit]
  cases hlr : (runLoop ((attrsAfterArgs b data).get "LOOP_INTERVAL")
      w.cancelAt w.script 0).1 <;> rfl

theorem afterInit_events_mem (data : Dict) (b : Bool) (w : World) (fs1 : FS)
    (logs : List LogEvent) (eng : Engine) (e : Ev)
    (h : e ∈ (afterInit data b w fs1 logs eng).events) :
    e ∈ (runLoop ((attrsAfterArgs b data).get "LOOP_INTERVAL")
        w.cancelAt w.script 0).2.1
    ∨ e = .criticalAlert ∨ e = .closedClient ∨ e = .flushedState := by
  cases hlr : (runLoop ((attrsAfterArgs b data).get "LOOP_INTERVAL")
      w.cancelAt w.script 0).1 with
  | outOfScript =>
    simp only [afterInit, hlr] at h
    exact Or.inl h
  | graceful =>
    simp only [afterInit, hlr] at h
    simp only [List.append_assoc, List.mem_append] at h
    rcases h with h | h | h
    · exact Or.inl h
    · simp at h
    · rcases drainRun_mem _ _ _ h with h | h
      · exact Or.inr (Or.inr (Or.inl h))
      · exact Or.inr (Or.inr (Or.inr h))
  | raised =>
    simp only [afterInit, hlr] at h
    simp only [List.append_assoc, List.mem_append] at h
    rcases h with h | h | h
    · exact Or.inl h
    · simp at h
      exact Or.inr (Or.inl h)
    · rcases drainRun_mem _ _ _ h with h | h
      · exact Or.inr (Or.inr (Or.inl h))
      · exact Or.inr (Or.inr (Or.inr h))

theorem afterInit_script (data : Dict) (b : Bool) (w : World)
    (s₂ : List IterOutcome) (fs1 : FS) (logs : List LogEvent) (eng : Engine)
    (h : s₂.map IterOutcome.completes = w.script.map IterOutcome.completes) :
    afterInit data b ⟨w.connectOk, s₂, w.cancelAt, w.closeRaises, w.saveRaises⟩
        fs1 logs eng
      = afterInit data b w fs1 logs eng := by
  simp only [afterInit]
  dsimp only
  rw [runLoop_duration _ w.cancelAt s₂ w.script 0 h]

theorem mainProcess_script (fs0 : FS) (env : Env) (a : Args) (w : World)
    (s₂ : List IterOutcome)
    (h : s₂.map IterOutcome.completes = w.script.map IterOutcome.completes) :
    mainProcess fs0 env a
        ⟨w.connectOk, s₂, w.cancelAt, w.closeRaises, w.saveRaises⟩
      = mainProcess fs0 env a w := by
  simp only [mainProcess]
  cases hres : (Config.resolve fs0 env a.configPath).1 with
  | error e => rfl
  | ok data =>
    dsimp only
    by_cases hconn : w.connectOk = true
    · rw [if_pos hconn, if_pos hconn]
      cases heng : engineFor (attrsAfterArgs a.backtest data) with
      | none => rfl
      | some eng => exact afterInit_script data a.backtest w s₂ _ _ eng h
    · rw [if_neg hconn, if_neg hconn]

/-- C1 (counterexample): with a file present at the configured path whose
content does not parse as JSON, construction of `Config` does not fail —
`_load_config` catches the parse exception and resolution succeeds with
the built-in defaults. This refutes the claim that resolution fails
fatally with `ConfigError.Malformed` and does not fall back to the
default configuration. -/
theorem C1_counterexample :
    (Config.resolve [("cfg/config.json", .malformed)] emptyEnv
      "cfg/config.json").1 = .ok DEFAULT_CONFIG
    ∧ (Config.resolve [("cfg/config.json", .malformed)] emptyEnv
      "cfg/config.json").2.2 = [.configLoadError, .apiKeysMissingWarning] :=
  ⟨rfl, rfl⟩

/-- C1 (amended): for every file path whose file exists but does not parse
as valid JSON, resolution logs an error, falls back to the built-in
defaults, and succeeds — no `ConfigError` exists in the code and no error
propagates; the file system is left unchanged. -/
theorem C1_malformed_falls_back (path : String) (fs : FS)
    (h : fs.read path = some .malformed) :
    Config.resolve fs emptyEnv path
      = (.ok DEFAULT_CONFIG, fs, [.configLoadError, .apiKeysMissingWarning]) := by
  have hlc : Config.load_config fs path = (DEFAULT_CONFIG, fs, [.configLoadError]) := by
    simp [Config.load_config, h]
  simp only [Config.resolve, hlc]
  rfl

/-- C1 witness: the amended theorem applied at a concrete malformed
file. -/
theorem C1_malformed_falls_back_witness :
    Config.resolve [("cfg2/config.json", FileContent.malformed)] emptyEnv
        "cfg2/config.json"
      = (.ok DEFAULT_CONFIG, [("cfg2/config.json", FileContent.malformed)],
         [.configLoadError, .apiKeysMissingWarning]) :=
  C1_malformed_falls_back "cfg2/config.json"
    [("cfg2/config.json", .malformed)] rfl

/-- C7: resolution at a missing file succeeds with the defaults, and
`_save_default_config` is invoked; but for the constructor's own default
path `config.json` — any path with no directory component —
`os.makedirs(os.path.dirname(path), exist_ok=True)` is `os.makedirs ""`,
which raises `FileNotFoundError`; the exception is caught and logged and
no default file is written, contradicting the claim that the default set
is written to the path. With a parent directory in the path the defaults
are persisted as claimed. -/
theorem C7_default_write :
    (Config.resolve [] emptyEnv "config.json").1 = .ok DEFAULT_CONFIG
    ∧ (Config.resolve [] emptyEnv "config.json").2.1 = []
    ∧ (Config.resolve [] emptyEnv "config.json").2.2
        = [.configFileNotFound, .defaultConfigSaveError, .apiKeysMissingWarning]
    ∧ (Config.resolve [] emptyEnv "data/config.json").1 = .ok DEFAULT_CONFIG
    ∧ (Config.resolve [] emptyEnv "data/config.json").2.1
        = [("data/config.json", FileContent.obj DEFAULT_CONFIG)] :=
  ⟨rfl, rfl, rfl, rfl, rfl⟩

/-- C5 (counterexample): `Config.update` mutates the live object in
place: after updating `SYMBOL` on an object whose data is the defaults,
the same object's `SYMBOL` is the new value, not the original one — the
original snapshot's value is not retained. -/
theorem C5_counterexample :
    (Config.update ⟨"cfg/config.json", DEFAULT_CONFIG, DEFAULT_CONFIG⟩
        (.cons "SYMBOL" (.str "ETHUSDT") .nil) []).1.data.get "SYMBOL"
      = some (.str "ETHUSDT")
    ∧ Fields.get DEFAULT_CONFIG "SYMBOL" = some (.str "BTCUSDT")
    ∧ Value.str "ETHUSDT" ≠ Value.str "BTCUSDT" :=
  ⟨rfl, rfl, by decide⟩

/-- C5 (amended): `Config.update` mutates the configuration object in
place — every argument key that is a default key is set to its new value
on the live object (both the attribute and `config_data`), unknown keys
are dropped with a warning, keys not mentioned keep their values, and the
whole updated configuration (restricted to the default keys) is persisted
wholesale to the configured file path. -/
theorem C5_update_mutates (c : Config.Obj) (nc : Dict) (fs : FS) (k : String)
    (hnd : nc.keys.Nodup) :
    (∀ v, nc.get k = some v → DEFAULT_CONFIG.hasKey k = true →
      (Config.update c nc fs).1.data.get k = some v
      ∧ (Config.update c nc fs).1.attrs.get k = some v)
    ∧ (nc.hasKey k = false →
      (Config.update c nc fs).1.data.get k = c.data.get k
      ∧ (Config.update c nc fs).1.attrs.get k = c.attrs.get k)
    ∧ (nc.hasKey k = true → DEFAULT_CONFIG.hasKey k = false →
      LogEvent.unknownKeyWarning k ∈ (Config.update c nc fs).2.2)
    ∧ (Config.update c nc fs).2.1.read c.path
        = some (.obj (Config.saveDict (Config.update c nc fs).1)) := by
  simp only [Config.update, Config.save]
  refine ⟨?_, ?_, ?_, ?_⟩
  · intro v hv hdk
    exact updateLoop_get c nc [] k v hnd hv hdk
  · intro hk
    exact updateLoop_not_has c nc [] k hk
  · intro hk hdk
    have hw := updateLoop_warn c nc [] k hk hdk
    simp [hw]
  · rw [updateLoop_path]
    exact FS.read_write_self fs c.path _

/-- C5 witness: the amended theorem applied at a concrete object and
update mapping containing one known and one unknown key. -/
theorem C5_update_mutates_witness :
    (Config.update ⟨"cfg/config.json", DEFAULT_CONFIG, DEFAULT_CONFIG⟩
        (.cons "SYMBOL" (.str "ETHUSDT") (.cons "BOGUS" (.int 1) .nil))
        []).1.data.get "SYMBOL" = some (.str "ETHUSDT")
    ∧ LogEvent.unknownKeyWarning "BOGUS" ∈
        (Config.update ⟨"cfg/config.json", DEFAULT_CONFIG, DEFAULT_CONFIG⟩
          (.cons "SYMBOL" (.str "ETHUSDT") (.cons "BOGUS" (.int 1) .nil))
          []).2.2
    ∧ (Config.update ⟨"cfg/config.json", DEFAULT_CONFIG, DEFAULT_CONFIG⟩
        (.cons "SYMBOL" (.str "ETHUSDT") (.cons "BOGUS" (.int 1) .nil))
        []).2.1.read "cfg/config.json"
      = some (.obj (Config.saveDict
          (Config.update ⟨"cfg/config.json", DEFAULT_CONFIG, DEFAULT_CONFIG⟩
            (.cons "SYMBOL" (.str "ETHUSDT") (.cons "BOGUS" (.int 1) .nil))
            []).1)) := by
  refine ⟨?_, ?_, ?_⟩
  · exact ((C5_update_mutates ⟨"cfg/config.json", DEFAULT_CONFIG, DEFAULT_CONFIG⟩
      (.cons "SYMBOL" (.str "ETHUSDT") (.cons "BOGUS" (.int 1) .nil)) []
      "SYMBOL" (by decide)).1 (.str "ETHUSDT") rfl rfl).1
  · exact (C5_update_mutates ⟨"cfg/config.json", DEFAULT_CONFIG, DEFAULT_CONFIG⟩
      (.cons "SYMBOL" (.str "ETHUSDT") (.cons "BOGUS" (.int 1) .nil)) []
      "BOGUS" (by decide)).2.2.1 rfl rfl
  · exact (C5_update_mutates ⟨"cfg/config.json", DEFAULT_CONFIG, DEFAULT_CONFIG⟩
      (.cons "SYMBOL" (.str "ETHUSDT") (.cons "BOGUS" (.int 1) .nil)) []
      "SYMBOL" (by decide)).2.2.2

/-- C3 (counterexample): a collaborator failure raised during the main
loop is caught by the `except` block and `main` returns normally after
the `finally` teardown, so the process exits `0` — not non-zero as the
claim states, and not only on graceful cancellation. -/
theorem C3_counterexample :
    (mainProcess [] emptyEnv ⟨"c/config.json", false, false, "market_making"⟩
        ⟨true, [.fail], none, false, false⟩).loopExit = some .raised
    ∧ (mainProcess [] emptyEnv ⟨"c/config.json", false, false, "market_making"⟩
        ⟨true, [.fail], none, false, false⟩).exitCode = 0 :=
  ⟨rfl, rfl⟩

/-- C3 (amended): the process exit code is `0` both when the run ends via
a graceful cancellation request and when an unrecovered collaborator
failure is raised during the main loop (it is caught, the teardown runs,
and `main` returns normally), provided the teardown calls themselves do
not raise; the exit code is non-zero (`1`) exactly on a fatal
initialization failure — configuration error, connection failure, or
unrecognized strategy — where the loop is never entered. -/
theorem C3_exit_codes (fs0 : FS) (env : Env) (a : Args) (w : World) :
    ((mainProcess fs0 env a w).loopExit = some .graceful →
      w.closeRaises = false → w.saveRaises = false →
      (mainProcess fs0 env a w).exitCode = 0)
    ∧ ((mainProcess fs0 env a w).loopExit = some .raised →
      w.closeRaises = false → w.saveRaises = false →
      (mainProcess fs0 env a w).exitCode = 0)
    ∧ ((mainProcess fs0 env a w).loopExit = none →
      (mainProcess fs0 env a w).exitCode = 1) := by
  refine ⟨?_, ?_, fun h => (mainProcess_none fs0 env a w h).1⟩
  · intro h hc hs
    obtain ⟨data, eng, hres, hconn, heng, hmain⟩ :=
      mainProcess_some fs0 env a w _ h
    rw [hmain] at h ⊢
    rw [afterInit_loopExit] at h
    simp only [Option.some.injEq] at h
    have hd := afterInit_decomp data a.backtest w
      (Config.resolve fs0 env a.configPath).2.1
      (Config.resolve fs0 env a.configPath).2.2 eng (by rw [h]; simp)
    rw [hd.2.1]
    simp [drainRun, hc, hs]
  · intro h hc hs
    obtain ⟨data, eng, hres, hconn, heng, hmain⟩ :=
      mainProcess_some fs0 env a w _ h
    rw [hmain] at h ⊢
    rw [afterInit_loopExit] at h
    simp only [Option.some.injEq] at h
    have hd := afterInit_decomp data a.backtest w
      (Config.resolve fs0 env a.configPath).2.1
      (Config.resolve fs0 env a.configPath).2.2 eng (by rw [h]; simp)
    rw [hd.2.1]
    simp [drainRun, hc, hs]

/-- C3 witness: the amended theorem applied at a graceful run, a run with
a collaborator failure, and a run whose initialization fails. -/
theorem C3_exit_codes_witness :
    (mainProcess [] emptyEnv ⟨"c/config.json", false, false, "market_making"⟩
        ⟨true, [.ok 1], some 1, false, false⟩).exitCode = 0
    ∧ (mainProcess [] emptyEnv ⟨"c/config.json", false, false, "market_making"⟩
        ⟨true, [.ok 1, .fail], none, false, false⟩).exitCode = 0
    ∧ (mainProcess [] emptyEnv ⟨"c/config.json", false, false, "market_making"⟩
        ⟨false, [], some 0, false, false⟩).exitCode = 1 :=
  ⟨(C3_exit_codes [] emptyEnv ⟨"c/config.json", false, false, "market_making"⟩
      ⟨true, [.ok 1], some 1, false, false⟩).1 rfl rfl rfl,
   (C3_exit_codes [] emptyEnv ⟨"c/config.json", false, false, "market_making"⟩
      ⟨true, [.ok 1, .fail], none, false, false⟩).2.1 rfl rfl rfl,
   (C3_exit_codes [] emptyEnv ⟨"c/config.json", false, false, "market_making"⟩
      ⟨false, [], some 0, false, false⟩).2.2 rfl⟩

/-- C4 (counterexample): an iteration body that takes 5 seconds against
the default 0.1-second `LOOP_INTERVAL` is followed by a full-interval
`time.sleep(0.1)` and no drift log — the code neither skips the sleep nor
logs drift when the body overruns the interval. -/
theorem C4_counterexample :
    Ev.slept (.float (1/10)) ∈ (mainProcess [] emptyEnv
        ⟨"c/config.json", false, false, "market_making"⟩
        ⟨true, [.ok 5], some 1, false, false⟩).events
    ∧ Ev.driftLogged ∉ (mainProcess [] emptyEnv
        ⟨"c/config.json", false, false, "market_making"⟩
        ⟨true, [.ok 5], some 1, false, false⟩).events
    ∧ ((1 : Rat)/10) < 5 := by
  refine ⟨?_, ?_, by norm_num⟩
  · have he : (mainProcess [] emptyEnv
        ⟨"c/config.json", false, false, "market_making"⟩
        ⟨true, [.ok 5], some 1, false, false⟩).events
      = [Ev.slept (.float (1/10)), Ev.closedClient, Ev.flushedState] := rfl
    rw [he]
    exact List.mem_cons_self _ _
  · have he : (mainProcess [] emptyEnv
        ⟨"c/config.json", false, false, "market_making"⟩
        ⟨true, [.ok 5], some 1, false, false⟩).events
      = [Ev.slept (.float (1/10)), Ev.closedClient, Ev.flushedState] := rfl
    rw [he]
    simp

/-- C4 (amended): at the end of every completed main-loop iteration the
supervisor calls `time.sleep(config.LOOP_INTERVAL)` unconditionally —
every sleep event carries exactly the configured interval, no elapsed
time is computed, no drift event is ever logged, and the iteration
durations have no effect whatsoever on the run. -/
theorem C4_sleep_full_interval (fs0 : FS) (env : Env) (a : Args) (w : World)
    (d : Dict) (hres : (mainProcess fs0 env a w).resolved = some d) :
    (∀ v, Ev.slept v ∈ (mainProcess fs0 env a w).events →
      some v = (attrsAfterArgs a.backtest d).get "LOOP_INTERVAL")
    ∧ Ev.driftLogged ∉ (mainProcess fs0 env a w).events
    ∧ (∀ script₂ : List IterOutcome,
        script₂.map IterOutcome.completes = w.script.map IterOutcome.completes →
        mainProcess fs0 env a
            ⟨w.connectOk, script₂, w.cancelAt, w.closeRaises, w.saveRaises⟩
          = mainProcess fs0 env a w) := by
  refine ⟨?_, ?_, fun s₂ h => mainProcess_script fs0 env a w s₂ h⟩
  · intro v hv
    cases hle : (mainProcess fs0 env a w).loopExit with
    | none =>
      rw [(mainProcess_none fs0 env a w hle).2.2] at hv
      simp at hv
    | some ex =>
      obtain ⟨data, eng, _, _, _, hmain⟩ := mainProcess_some fs0 env a w ex hle
      rw [hmain] at hv hres
      rw [afterInit_resolved] at hres
      simp only [Option.some.injEq] at hres
      subst hres
      rcases afterInit_events_mem data a.backtest w _ _ eng _ hv
        with hm | hm | hm | hm
      · obtain ⟨v', hev, hiv⟩ := runLoop_events_slept _ _ _ _ _ hm
        injection hev with hv'
        subst hv'
        exact hiv.symm
      · exact Ev.noConfusion hm
      · exact Ev.noConfusion hm
      · exact Ev.noConfusion hm
  · intro hv
    cases hle : (mainProcess fs0 env a w).loopExit with
    | none =>
      rw [(mainProcess_none fs0 env a w hle).2.2] at hv
      simp at hv
    | some ex =>
      obtain ⟨data, eng, _, _, _, hmain⟩ := mainProcess_some fs0 env a w ex hle
      rw [hmain] at hv
      rcases afterInit_events_mem data a.backtest w _ _ eng _ hv
        with hm | hm | hm | hm
      · obtain ⟨v', hev, _⟩ := runLoop_events_slept _ _ _ _ _ hm
        exact Ev.noConfusion hev
      · exact Ev.noConfusion hm
      · exact Ev.noConfusion hm
      · exact Ev.noConfusion hm

/-- C4 witness: the amended theorem applied at a run whose single
iteration takes 7 seconds: no drift is logged, and replacing the
duration by 0 yields the identical run. -/
theorem C4_sleep_full_interval_witness :
    Ev.driftLogged ∉ (mainProcess [] emptyEnv
        ⟨"c/config.json", false, false, "market_making"⟩
        ⟨true, [.ok 7], some 1, false, false⟩).events
    ∧ mainProcess [] emptyEnv ⟨"c/config.json", false, false, "market_making"⟩
        ⟨true, [.ok 0], some 1, false, false⟩
      = mainProcess [] emptyEnv ⟨"c/config.json", false, false, "market_making"⟩
        ⟨true, [.ok 7], some 1, false, false⟩ := by
  have h := C4_sleep_full_interval [] emptyEnv
    ⟨"c/config.json", false, false, "market_making"⟩
    ⟨true, [.ok 7], some 1, false, false⟩ DEFAULT_CONFIG rfl
  exact ⟨h.2.1, h.2.2 [.ok 0] (by decide)⟩

/-- C6 (counterexample): on a graceful stop the teardown closes the
client and flushes state, but no alert-sink shutdown notification is ever
issued — the claim's third drain action does not exist in the code. -/
theorem C6_counterexample :
    (mainProcess [] emptyEnv ⟨"c/config.json", false, false, "market_making"⟩
        ⟨true, [], some 0, false, false⟩).events
      = [Ev.closedClient, Ev.flushedState]
    ∧ (mainProcess [] emptyEnv ⟨"c/config.json", false, false, "market_making"⟩
        ⟨true, [], some 0, false, false⟩).events.count Ev.shutdownNotified
      = 0 :=
  ⟨rfl, rfl⟩

/-- C6 (amended): whenever the run leaves the main loop — by graceful
cancellation or by a caught collaborator failure — and the teardown calls
do not raise, the drain performs, in order and each exactly once: close
the connectivity client, then flush persistence state, and nothing else;
in particular the alert sink receives no shutdown notification. -/
theorem C6_drain_actions (fs0 : FS) (env : Env) (a : Args) (w : World)
    (ex : LoopExit) (h : (mainProcess fs0 env a w).loopExit = some ex)
    (hns : ex ≠ .outOfScript)
    (hc : w.closeRaises = false) (hs : w.saveRaises = false) :
    (mainProcess fs0 env a w).events.filter Ev.teardown
      = [Ev.closedClient, Ev.flushedState] := by
  obtain ⟨data, eng, hres, hconn, heng, hmain⟩ :=
    mainProcess_some fs0 env a w ex h
  rw [hmain] at h ⊢
  rw [afterInit_loopExit] at h
  simp only [Option.some.injEq] at h
  have hd := afterInit_decomp data a.backtest w
    (Config.resolve fs0 env a.configPath).2.1
    (Config.resolve fs0 env a.configPath).2.2 eng (by rw [h]; exact hns)
  rw [hd.1]
  rw [List.filter_append, List.filter_append]
  have h1 : (runLoop ((attrsAfterArgs a.backtest data).get "LOOP_INTERVAL")
      w.cancelAt w.script 0).2.1.filter Ev.teardown = [] := by
    rw [List.filter_eq_nil_iff]
    intro e he
    obtain ⟨v, rfl, _⟩ := runLoop_events_slept _ _ _ _ _ he
    simp [Ev.teardown]
  rw [h1]
  have h2 : (if (runLoop ((attrsAfterArgs a.backtest data).get "LOOP_INTERVAL")
        w.cancelAt w.script 0).1 = LoopExit.raised then [Ev.criticalAlert]
      else []).filter Ev.teardown = [] := by
    by_cases hr : (runLoop ((attrsAfterArgs a.backtest data).get "LOOP_INTERVAL")
        w.cancelAt w.script 0).1 = LoopExit.raised <;> simp [hr, Ev.teardown]
  rw [h2]
  simp [drainRun, hc, hs, Ev.teardown]

/-- C6 witness: the amended theorem applied at a concrete graceful run. -/
theorem C6_drain_actions_witness :
    (mainProcess [] emptyEnv ⟨"c/config.json", false, false, "market_making"⟩
        ⟨true, [.ok 2], some 1, false, false⟩).events.filter Ev.teardown
      = [Ev.closedClient, Ev.flushedState] :=
  C6_drain_actions [] emptyEnv ⟨"c/config.json", false, false, "market_making"⟩
    ⟨true, [.ok 2], some 1, false, false⟩ .graceful rfl (by decide) rfl rfl

/-- C2 (counterexample): an environment variable that is set but empty is
ignored — `_load_env_variables` guards each variable with Python
truthiness, so with `BOT_SYMBOL` set to the empty string the resolved
`SYMBOL` is the file's value, not the value the converter would derive
from the environment (the empty string). -/
theorem C2_counterexample :
    (fun n => if n = "BOT_SYMBOL" then some "" else none : Env) "BOT_SYMBOL"
      = some ""
    ∧ resolveGet [("c/config.json", .obj (.cons "SYMBOL" (.str "ETHUSDT") .nil))]
        (fun n => if n = "BOT_SYMBOL" then some "" else none)
        "c/config.json" "SYMBOL"
      = some (.str "ETHUSDT")
    ∧ (Config.env_mapping.map (fun e => e.key)).contains "SYMBOL" = true
    ∧ Value.str "ETHUSDT" ≠ Value.str "" := by
  refine ⟨rfl, rfl, rfl, ?_⟩
  simp

/-- C2 (amended): for every key in the enumerated environment mapping
whose variable is set to a non-empty string, the resolved value is the
converter applied to the environment value (environment beats file and
defaults); and with no environment variable effective, a key present in
the file resolves to the file's value while every other key resolves to
its built-in default — precedence low to high is defaults, file,
environment, with empty-valued environment variables ignored. -/
theorem C2_env_precedence :
    (∀ (fs : FS) (env : Env) (path : String) (e : Config.EnvEntry)
      (s : String) (cfg : Dict),
      e ∈ Config.env_mapping → env e.envName = some s → s ≠ "" →
      (Config.resolve fs env path).1 = .ok cfg →
      cfg.get e.key = e.conv s)
    ∧ (∀ (fs : FS) (env : Env) (path : String) (user : Dict) (cfg : Dict)
      (k : String),
      fs.read path = some (.obj user) → user.keys.Nodup →
      (∀ n ∈ allEnvNames, envTruthy env n = none) →
      (Config.resolve fs env path).1 = .ok cfg →
      (user.hasKey k = true → cfg.get k = user.get k)
      ∧ (user.hasKey k = false → cfg.get k = DEFAULT_CONFIG.get k)) := by
  constructor
  · intro fs env path e s cfg hm henv hs h
    obtain ⟨l2, hle⟩ := resolve_ok_elim fs env path cfg h
    have ht : envTruthy env e.envName = some s := by
      simp [envTruthy, henv, hs]
    exact load_env_variables_ok_get env e s _ (cfg, l2) hm ht hle
  · intro fs env path user cfg k hr hnd henv h
    have hcfg := resolve_file_off fs env path user cfg hr henv h
    subst hcfg
    have hm := mergeDicts_get user hnd DEFAULT_CONFIG k
    constructor
    · intro hk
      rw [hm]
      cases hu : user.get k with
      | none =>
        exfalso
        rw [Fields.get_eq_none_iff] at hu
        rw [Fields.hasKey_iff] at hk
        exact hu hk
      | some v => rfl
    · intro hk
      have hu : user.get k = none := Fields.get_eq_none_of_hasKey_false user k hk
      rw [hm, hu]

/-- C2 witness: the amended theorem applied at a run whose environment
sets `BOT_SYMBOL=XRPUSDT` (environment wins) and at a run with a file
value and no environment (file wins, defaults fill the rest). -/
theorem C2_env_precedence_witness :
    (Fields.insert DEFAULT_CONFIG "SYMBOL" (.str "XRPUSDT")).get "SYMBOL"
      = some (.str "XRPUSDT")
    ∧ (mergeDicts DEFAULT_CONFIG (.cons "DB_PATH" (.str "x.db") .nil)).get "DB_PATH"
      = (Fields.cons "DB_PATH" (.str "x.db") .nil).get "DB_PATH"
    ∧ (mergeDicts DEFAULT_CONFIG (.cons "DB_PATH" (.str "x.db") .nil)).get "SYMBOL"
      = DEFAULT_CONFIG.get "SYMBOL" := by
  refine ⟨?_, ?_, ?_⟩
  · exact C2_env_precedence.1 []
      (fun n => if n = "BOT_SYMBOL" then some "XRPUSDT" else none)
      "c/config.json" ⟨"BOT_SYMBOL", "SYMBOL", fun s => some (.str s)⟩
      "XRPUSDT" (Fields.insert DEFAULT_CONFIG "SYMBOL" (.str "XRPUSDT"))
      (List.Mem.tail _ (List.Mem.head _)) rfl (by decide) rfl
  · exact (C2_env_precedence.2
      [("c/config.json", .obj (.cons "DB_PATH" (.str "x.db") .nil))]
      emptyEnv "c/config.json" (.cons "DB_PATH" (.str "x.db") .nil)
      (mergeDicts DEFAULT_CONFIG (.cons "DB_PATH" (.str "x.db") .nil)) "DB_PATH"
      rfl (by decide) (fun n _ => rfl) rfl).1 rfl
  · exact (C2_env_precedence.2
      [("c/config.json", .obj (.cons "DB_PATH" (.str "x.db") .nil))]
      emptyEnv "c/config.json" (.cons "DB_PATH" (.str "x.db") .nil)
      (mergeDicts DEFAULT_CONFIG (.cons "DB_PATH" (.str "x.db") .nil)) "SYMBOL"
      rfl (by decide) (fun n _ => rfl) rfl).2 rfl

/-- C8: for every strategy name outside the valid set, configuration
resolution of a file selecting that strategy succeeds — only a warning is
logged — but `initialize_components` has no matching engine and raises,
so the process exits non-zero before the main loop is ever entered. -/
theorem C8_unknown_strategy (s : String) (w : World)
    (hs : s ∉ Config.valid_strategies) (hconn : w.connectOk = true) :
    (Config.resolve [("c/config.json", .obj (.cons "STRATEGY" (.str s) .nil))]
        emptyEnv "c/config.json").1
      = .ok (DEFAULT_CONFIG.insert "STRATEGY" (.str s))
    ∧ LogEvent.strategyWarning ∈
        (Config.resolve [("c/config.json", .obj (.cons "STRATEGY" (.str s) .nil))]
          emptyEnv "c/config.json").2.2
    ∧ (mainProcess [("c/config.json", .obj (.cons "STRATEGY" (.str s) .nil))]
        emptyEnv ⟨"c/config.json", false, false, "market_making"⟩ w).exitCode = 1
    ∧ (mainProcess [("c/config.json", .obj (.cons "STRATEGY" (.str s) .nil))]
        emptyEnv ⟨"c/config.json", false, false, "market_making"⟩ w).loopExit
      = none
    ∧ (mainProcess [("c/config.json", .obj (.cons "STRATEGY" (.str s) .nil))]
        emptyEnv ⟨"c/config.json", false, false, "market_making"⟩ w).iters
      = 0 := by
  simp only [Config.valid_strategies, List.mem_cons, List.not_mem_nil,
    or_false, not_or] at hs
  obtain ⟨h1, h2, h3⟩ := hs
  have hd : Config.load_config
      [("c/config.json", .obj (.cons "STRATEGY" (.str s) .nil))] "c/config.json"
      = (DEFAULT_CONFIG.insert "STRATEGY" (.str s),
         [("c/config.json", .obj (.cons "STRATEGY" (.str s) .nil))],
         [.configLoaded]) := rfl
  have henvoff : Config.load_env_variables emptyEnv
      (DEFAULT_CONFIG.insert "STRATEGY" (.str s))
      = .ok (DEFAULT_CONFIG.insert "STRATEGY" (.str s), []) :=
    load_env_variables_off emptyEnv _ (fun n _ => rfl)
  have hgetS : (DEFAULT_CONFIG.insert "STRATEGY" (.str s)).get "STRATEGY"
      = some (.str s) := rfl
  have hsv : ((Config.valid_strategies.map Value.str).contains (Value.str s))
      = false := by
    simp [Config.valid_strategies, h1, h2, h3]
  have hval : Config.validate_config (DEFAULT_CONFIG.insert "STRATEGY" (.str s))
      = .ok [.apiKeysMissingWarning, .strategyWarning] := by
    simp only [Config.validate_config, hgetS, hsv]
    rfl
  have hres : (Config.resolve
      [("c/config.json", .obj (.cons "STRATEGY" (.str s) .nil))]
      emptyEnv "c/config.json").1
      = .ok (DEFAULT_CONFIG.insert "STRATEGY" (.str s)) := by
    simp only [Config.resolve, hd]
    rw [henvoff]
    dsimp only
    rw [hval]
  have hlog : (Config.resolve
      [("c/config.json", .obj (.cons "STRATEGY" (.str s) .nil))]
      emptyEnv "c/config.json").2.2
      = [.configLoaded, .apiKeysMissingWarning, .strategyWarning] := by
    simp only [Config.resolve, hd]
    rw [henvoff]
    dsimp only
    rw [hval]
    rfl
  have he1 : ¬((DEFAULT_CONFIG.insert "STRATEGY" (.str s)).get "STRATEGY"
      = some (.str "market_making")) := by
    rw [hgetS]; simp [h1]
  have he2 : ¬((DEFAULT_CONFIG.insert "STRATEGY" (.str s)).get "STRATEGY"
      = some (.str "arbitrage")) := by
    rw [hgetS]; simp [h2]
  have he3 : ¬((DEFAULT_CONFIG.insert "STRATEGY" (.str s)).get "STRATEGY"
      = some (.str "momentum")) := by
    rw [hgetS]; simp [h3]
  have heng : engineFor (DEFAULT_CONFIG.insert "STRATEGY" (.str s)) = none := by
    simp only [engineFor, if_neg he1, if_neg he2, if_neg he3]
  have hmp : mainProcess
      [("c/config.json", .obj (.cons "STRATEGY" (.str s) .nil))]
      emptyEnv ⟨"c/config.json", false, false, "market_making"⟩ w
      = ⟨1, some (DEFAULT_CONFIG.insert "STRATEGY" (.str s)), none, none, 0, [],
         (Config.resolve
           [("c/config.json", .obj (.cons "STRATEGY" (.str s) .nil))]
           emptyEnv "c/config.json").2.1,
         (Config.resolve
           [("c/config.json", .obj (.cons "STRATEGY" (.str s) .nil))]
           emptyEnv "c/config.json").2.2⟩ := by
    simp only [mainProcess]
    split
    next e he =>
      rw [hres] at he
      simp at he
    next data he =>
      rw [hres] at he
      simp only [Except.ok.injEq] at he
      subst he
      rw [if_pos hconn]
      split
      next eng he2 =>
        exfalso
        have h4 : engineFor (DEFAULT_CONFIG.insert "STRATEGY" (.str s))
            = some eng := he2
        rw [heng] at h4
        simp at h4
      next he2 => rfl
  refine ⟨hres, ?_, ?_, ?_, ?_⟩
  · rw [hlog]; simp
  · rw [hmp]
  · rw [hmp]
  · rw [hmp]

/-- C8 witness: the theorem applied at the unlisted strategy name
`scalping` from the specification's scenario 3. -/
theorem C8_unknown_strategy_witness :
    (mainProcess [("c/config.json",
        .obj (.cons "STRATEGY" (.str "scalping") .nil))]
      emptyEnv ⟨"c/config.json", false, false, "market_making"⟩
      ⟨true, [], some 0, false, false⟩).exitCode = 1 :=
  (C8_unknown_strategy "scalping" ⟨true, [], some 0, false, false⟩
    (by decide) rfl).2.2.1

/-- C9: resolving a persisted configuration file whose key set is exactly
the default key set, with no mapped environment variable set, and then
re-persisting the resolved configuration through `save`, yields content
structurally equal to the original file: the saved dictionary agrees with
the file's dictionary on every key. -/
theorem C9_round_trip (fs : FS) (env : Env) (path : String) (user : Dict)
    (c : Config.Obj)
    (hr : fs.read path = some (.obj user))
    (hkeys : ∀ k, user.hasKey k = DEFAULT_CONFIG.hasKey k)
    (hnd : user.keys.Nodup)
    (henv : ∀ n ∈ allEnvNames, envTruthy env n = none)
    (hinit : (Config.init fs env path).1 = .ok c)
    (k : String) :
    (Config.saveDict c).get k = user.get k := by
  simp only [Config.init] at hinit
  cases hres : (Config.resolve fs env path).1 with
  | error e => rw [hres] at hinit; simp at hinit
  | ok d =>
    rw [hres] at hinit
    simp only [Except.ok.injEq] at hinit
    have hd := resolve_file_off fs env path user d hr henv hres
    subst hd
    subst hinit
    simp only [Config.saveDict]
    have hnddef : DEFAULT_CONFIG.keys.Nodup := by decide
    rw [pickAttrs_get _ _ hnddef]
    by_cases hk : k ∈ DEFAULT_CONFIG.keys
    · rw [if_pos hk]
      rw [mergeDicts_get user hnd DEFAULT_CONFIG k]
      have hub : user.hasKey k = true := by
        rw [hkeys, Fields.hasKey_iff]
        exact hk
      cases hu : user.get k with
      | none =>
        exfalso
        rw [Fields.get_eq_none_iff] at hu
        rw [Fields.hasKey_iff] at hub
        exact hu hub
      | some v => rfl
    · rw [if_neg hk]
      have hub : user.hasKey k = false := by
        rw [hkeys]
        rw [Fields.hasKey_eq_false_iff]
        exact hk
      exact (Fields.get_eq_none_of_hasKey_false user k hub).symm

/-- C9 witness: the theorem applied at a persisted file equal to the
defaults except for `SYMBOL`, evaluated at the key `SYMBOL`. -/
theorem C9_round_trip_witness :
    (Config.saveDict ⟨"c/config.json",
        mergeDicts DEFAULT_CONFIG (DEFAULT_CONFIG.insert "SYMBOL" (.str "ETHUSDT")),
        mergeDicts DEFAULT_CONFIG
          (DEFAULT_CONFIG.insert "SYMBOL" (.str "ETHUSDT"))⟩).get "SYMBOL"
      = (DEFAULT_CONFIG.insert "SYMBOL" (.str "ETHUSDT")).get "SYMBOL" :=
  C9_round_trip
    [("c/config.json", .obj (DEFAULT_CONFIG.insert "SYMBOL" (.str "ETHUSDT")))]
    emptyEnv "c/config.json" (DEFAULT_CONFIG.insert "SYMBOL" (.str "ETHUSDT"))
    ⟨"c/config.json",
      mergeDicts DEFAULT_CONFIG (DEFAULT_CONFIG.insert "SYMBOL" (.str "ETHUSDT")),
      mergeDicts DEFAULT_CONFIG (DEFAULT_CONFIG.insert "SYMBOL" (.str "ETHUSDT"))⟩
    rfl (fun k => rfl) (by decide) (fun n _ => rfl) rfl "SYMBOL"

/-- C10: the value of the parsed `--strategy` option is never read — two
invocations differing only in that option produce identical runs
(identical resolved configuration, engine, events, exit code and file
system), and which kind of strategy engine `initialize_components`
constructs is determined by the configuration's `STRATEGY` value alone. -/
theorem C10_strategy_option_unused :
    (∀ (fs0 : FS) (env : Env) (path : String) (dbg bt : Bool)
      (s₁ s₂ : String) (w : World),
      s₁ ∈ Config.valid_strategies → s₂ ∈ Config.valid_strategies →
      mainProcess fs0 env ⟨path, dbg, bt, s₁⟩ w
        = mainProcess fs0 env ⟨path, dbg, bt, s₂⟩ w)
    ∧ (∀ d₁ d₂ : Dict, d₁.get "STRATEGY" = d₂.get "STRATEGY" →
      (engineFor d₁).map Engine.kind = (engineFor d₂).map Engine.kind) := by
  constructor
  · intro fs0 env path dbg bt s₁ s₂ w _ _
    rfl
  · intro d₁ d₂ h
    simp only [engineFor, h]
    split_ifs <;> simp [Engine.kind]

/-- C10 witness: the theorem applied at two valid strategy options and at
two dictionaries agreeing on `STRATEGY`. -/
theorem C10_strategy_option_unused_witness :
    mainProcess [] emptyEnv ⟨"c/config.json", false, false, "market_making"⟩
        ⟨true, [], some 0, false, false⟩
      = mainProcess [] emptyEnv ⟨"c/config.json", false, false, "momentum"⟩
        ⟨true, [], some 0, false, false⟩
    ∧ (engineFor (.cons "STRATEGY" (.str "arbitrage") .nil)).map Engine.kind
      = (engineFor (.cons "STRATEGY" (.str "arbitrage")
          (.cons "SYMBOL" (.str "ETHUSDT") .nil))).map Engine.kind :=
  ⟨C10_strategy_option_unused.1 [] emptyEnv "c/config.json" false false
      "market_making" "momentum" ⟨true, [], some 0, false, false⟩
      (by decide) (by decide),
   C10_strategy_option_unused.2
      (.cons "STRATEGY" (.str "arbitrage") .nil)
      (.cons "STRATEGY" (.str "arbitrage") (.cons "SYMBOL" (.str "ETHUSDT") .nil))
      rfl⟩

end HFT
